import Mathlib

/-!
Shallow embedding of the `tail_mysql` MySQL client (Rust) and verification of
the frozen claims about its specification.

The embedding models byte buffers as `List Nat` (every element a byte value
`< 256`), and a cursor operation as a function from the buffer to an
`RResult`: success carries the produced value together with the remaining
buffer; the other outcomes mirror the source's error kinds
(`io::ErrorKind::UnexpectedEof` produced by `util::unexpected_eof`,
`io::ErrorKind::Other` produced by `util::unexpected_err`) and a Rust panic
(out-of-bounds access in the `bytes` crate, `unwrap` on an `Err`, explicit
`panic!`/`todo!`).

Rust `String`s are modelled as their UTF-8 byte lists; `String::from_utf8`
becomes the executable validator `validUtf8` below.
-/

namespace TailMysql

/-- Outcome of running a byte-cursor operation from `src/buf_ext.rs` /
`src/protocol.rs`: success (value + remaining buffer), an
`UnexpectedEof` io error, an `Other` io error, or a Rust panic. -/
inductive RResult (α : Type) where
  | ok : α → List Nat → RResult α
  | eofErr : RResult α
  | otherErr : RResult α
  | panicked : RResult α
deriving DecidableEq, Repr

/-- Sequencing of cursor operations: Rust's `?` on `io::Result` plus
propagation of panics. -/
def RResult.bind {α β : Type} : RResult α → (α → List Nat → RResult β) → RResult β
  | .ok a rest, f => f a rest
  | .eofErr, _ => .eofErr
  | .otherErr, _ => .otherErr
  | .panicked, _ => .panicked

@[simp] theorem RResult.bind_ok {α β : Type} (a : α) (r : List Nat)
    (f : α → List Nat → RResult β) : RResult.bind (.ok a r) f = f a r := rfl

@[simp] theorem RResult.bind_eofErr {α β : Type} (f : α → List Nat → RResult β) :
    RResult.bind .eofErr f = .eofErr := rfl

@[simp] theorem RResult.bind_otherErr {α β : Type} (f : α → List Nat → RResult β) :
    RResult.bind .otherErr f = .otherErr := rfl

@[simp] theorem RResult.bind_panicked {α β : Type} (f : α → List Nat → RResult β) :
    RResult.bind .panicked f = .panicked := rfl

/-- Little-endian value of a byte list (first byte least significant); the
reading discipline of `Buf::get_uint_le`. -/
def leVal : List Nat → Nat
  | [] => 0
  | x :: xs => x + 256 * leVal xs

/-- `Buf::get_u8`: pops one byte, panicking on an empty buffer. -/
def getU8 (b : List Nat) : RResult Nat :=
  match b with
  | [] => .panicked
  | x :: rest => .ok x rest

/-- `Buf::get_uint_le(nbytes)`: reads `n` bytes as a little-endian integer,
panicking when fewer than `n` bytes remain. -/
def getUintLe (n : Nat) (b : List Nat) : RResult Nat :=
  if n ≤ b.length then .ok (leVal (b.take n)) (b.drop n) else .panicked

/-- `Buf::advance(n)`: skips `n` bytes, panicking when fewer remain. -/
def advance (n : Nat) (b : List Nat) : RResult Unit :=
  if n ≤ b.length then .ok () (b.drop n) else .panicked

/-- `Bytes::split_to(n)` / `Buf::copy_to_slice` into an `n`-byte buffer:
takes the first `n` bytes, panicking when fewer remain. -/
def splitTo (n : Nat) (b : List Nat) : RResult (List Nat) :=
  if n ≤ b.length then .ok (b.take n) (b.drop n) else .panicked

/-- `BufExt::safe_get_u8` (src/buf_ext.rs): `get_u8` guarded by
`remaining() >= 1`, returning `UnexpectedEof` instead of panicking. -/
def safeGetU8 (b : List Nat) : RResult Nat :=
  if 1 ≤ b.length then getU8 b else .eofErr

/-- `BufExt::safe_get_uint_le` (src/buf_ext.rs): `get_uint_le` guarded by
`remaining() >= nbytes`, returning `UnexpectedEof` instead of panicking. -/
def safeGetUintLe (n : Nat) (b : List Nat) : RResult Nat :=
  if n ≤ b.length then getUintLe n b else .eofErr

/-- `BufExt::safe_get_lenc_uint` (src/buf_ext.rs): MySQL length-encoded
integer. Reads one byte; `0xFC`/`0xFD`/`0xFE` select a 2/3/8 byte LE
integer, `0xFF` is an `Other` error ("Invalid length-encoded integer
value"), anything else is the value itself. -/
def safeGetLencUint (b : List Nat) : RResult Nat :=
  (safeGetU8 b).bind fun x rest =>
    if x = 0xfc then safeGetUintLe 2 rest
    else if x = 0xfd then safeGetUintLe 3 rest
    else if x = 0xfe then safeGetUintLe 8 rest
    else if x = 0xff then .otherErr
    else .ok x rest

/-- `BufExt::safe_get_lenc_bytes` (src/buf_ext.rs): reads a length-encoded
integer `len`, then copies `len` bytes out of the buffer with
`Buf::copy_to_slice`, which panics when fewer than `len` bytes remain. -/
def safeGetLencBytes (b : List Nat) : RResult (List Nat) :=
  (safeGetLencUint b).bind fun len rest => splitTo len rest

/-- Continuation byte of a UTF-8 sequence (`0x80..=0xBF`). -/
def isCont (b : Nat) : Bool := 0x80 ≤ b && b ≤ 0xBF

/-- `String::from_utf8` validity: the standard UTF-8 acceptance automaton
(rejecting overlong forms, surrogates, and values above `0x10FFFF`). -/
def validUtf8 : List Nat → Bool
  | [] => true
  | b0 :: rest =>
    if b0 ≤ 0x7F then validUtf8 rest
    else if 0xC2 ≤ b0 && b0 ≤ 0xDF then
      match rest with
      | b1 :: rest2 => isCont b1 && validUtf8 rest2
      | [] => false
    else if b0 = 0xE0 then
      match rest with
      | b1 :: b2 :: rest2 => (0xA0 ≤ b1 && b1 ≤ 0xBF) && isCont b2 && validUtf8 rest2
      | _ => false
    else if (0xE1 ≤ b0 && b0 ≤ 0xEC) || b0 = 0xEE || b0 = 0xEF then
      match rest with
      | b1 :: b2 :: rest2 => isCont b1 && isCont b2 && validUtf8 rest2
      | _ => false
    else if b0 = 0xED then
      match rest with
      | b1 :: b2 :: rest2 => (0x80 ≤ b1 && b1 ≤ 0x9F) && isCont b2 && validUtf8 rest2
      | _ => false
    else if b0 = 0xF0 then
      match rest with
      | b1 :: b2 :: b3 :: rest2 =>
        (0x90 ≤ b1 && b1 ≤ 0xBF) && isCont b2 && isCont b3 && validUtf8 rest2
      | _ => false
    else if 0xF1 ≤ b0 && b0 ≤ 0xF3 then
      match rest with
      | b1 :: b2 :: b3 :: rest2 => isCont b1 && isCont b2 && isCont b3 && validUtf8 rest2
      | _ => false
    else if b0 = 0xF4 then
      match rest with
      | b1 :: b2 :: b3 :: rest2 =>
        (0x80 ≤ b1 && b1 ≤ 0x8F) && isCont b2 && isCont b3 && validUtf8 rest2
      | _ => false
    else false

/-- `BufExt::safe_get_fixed_length_string` (src/buf_ext.rs): when at least
`len` bytes remain, copies them and validates UTF-8 (`Other` error on
invalid bytes); otherwise `UnexpectedEof`. -/
def safeGetFixedLengthString (len : Nat) (b : List Nat) : RResult (List Nat) :=
  if len ≤ b.length then
    if validUtf8 (b.take len) then .ok (b.take len) (b.drop len) else .otherErr
  else .eofErr

/-- `util::null_terminated_pos` (src/util.rs): index of the first `0x00`
byte, or the length of the slice when absent
(`position(..).unwrap_or(len)`, which is exactly `List.findIdx`). -/
def nullTerminatedPos (b : List Nat) : Nat :=
  b.findIdx (fun x => x == 0)

/-- `BufExt::safe_null_terminated_string` (src/buf_ext.rs): position of the
first `0x00` (or the whole remainder), then a fixed-length string of that
many bytes. -/
def safeNullTerminatedString (b : List Nat) : RResult (List Nat) :=
  safeGetFixedLengthString (nullTerminatedPos b) b

/-- `BufExt::safe_get_eof_string` (src/buf_ext.rs): fixed-length string over
the whole remaining buffer. -/
def safeGetEofString (b : List Nat) : RResult (List Nat) :=
  safeGetFixedLengthString b.length b

/-- `BufExt::safe_get_lenc_string` (src/buf_ext.rs): length-encoded integer,
then a fixed-length string of that many bytes. -/
def safeGetLencString (b : List Nat) : RResult (List Nat) :=
  (safeGetLencUint b).bind fun len rest => safeGetFixedLengthString len rest

/-- `Result::unwrap` on an `io::Result`: errors become panics. -/
def unwrapR {α : Type} : RResult α → RResult α
  | .ok a r => .ok a r
  | _ => .panicked

/-- `BufExt::get_lenc_uint`: `safe_get_lenc_uint().unwrap()`. -/
def getLencUint (b : List Nat) : RResult Nat := unwrapR (safeGetLencUint b)

/-- `BufExt::get_lenc_string`: `safe_get_lenc_string().unwrap()`. -/
def getLencString (b : List Nat) : RResult (List Nat) := unwrapR (safeGetLencString b)

/-- `BufExt::get_eof_string`: `safe_get_eof_string().unwrap()`. -/
def getEofString (b : List Nat) : RResult (List Nat) := unwrapR (safeGetEofString b)

/-- `BufExt::get_fixed_length_string`: `safe_get_fixed_length_string(len).unwrap()`. -/
def getFixedLengthString (len : Nat) (b : List Nat) : RResult (List Nat) :=
  unwrapR (safeGetFixedLengthString len b)

/-- `BufExt::get_null_terminated_string`: `safe_null_terminated_string().unwrap()`. -/
def getNullTerminatedString (b : List Nat) : RResult (List Nat) :=
  unwrapR (safeNullTerminatedString b)

/-! ## Capability and status flags (src/protocol.rs)

`bitflags!` sets are modelled as `Nat` bit masks; `contains` is
`(bits &&& flag) == flag` and `from_bits_truncate` masks with the union of
the declared flags. -/

def CLIENT_LONG_PASSWORD : Nat := 0x00000001
def CLIENT_FOUND_ROWS : Nat := 0x00000002
def CLIENT_LONG_FLAG : Nat := 0x00000004
def CLIENT_CONNECT_WITH_DB : Nat := 0x00000008
def CLIENT_COMPRESS : Nat := 0x00000020
def CLIENT_PROTOCOL_41 : Nat := 0x00000200
def CLIENT_SSL : Nat := 0x00000800
def CLIENT_TRANSACTIONS : Nat := 0x00002000
def CLIENT_SECURE_CONNECTION : Nat := 0x00008000
def CLIENT_PLUGIN_AUTH : Nat := 0x00080000
def CLIENT_SESSION_TRACK : Nat := 0x00800000
def CLIENT_DEPRECATE_EOF : Nat := 0x01000000

/-- Union of every flag declared in `CapabilityFlags` (bits 0..24 and
29..31), the mask applied by `CapabilityFlags::from_bits_truncate`. -/
def CAPABILITY_ALL : Nat := 0xE1FFFFFF

/-- `CapabilityFlags::from_bits_truncate`. -/
def capFromBitsTruncate (bits : Nat) : Nat := bits &&& CAPABILITY_ALL

/-- `bitflags` `contains`: all bits of `flag` are set in `c`. -/
def capHas (c flag : Nat) : Bool := (c &&& flag) == flag

/-- `SERVER_SESSION_STATE_CHANGED` of `StatusFlags`. -/
def SERVER_SESSION_STATE_CHANGED : Nat := 0x4000

/-- Union of every flag declared in `StatusFlags` (bits 0..14 except
bit 2), the mask applied by `StatusFlags::from_bits_truncate`. -/
def STATUS_ALL : Nat := 0x7FFB

/-- `StatusFlags::from_bits_truncate`. -/
def statusFromBitsTruncate (bits : Nat) : Nat := bits &&& STATUS_ALL

/-- Ids with a `CharacterSet` variant; `From<u8> for CharacterSet` panics on
any other id. -/
def validCharSetId (id : Nat) : Bool :=
  [0x01, 0x03, 0x04, 0x06, 0x07, 0x08, 0x09, 0x0A, 0x0B, 0x0C, 0x0D, 0x10,
   0x12, 0x13, 0x16, 0x18, 0x19, 0x1A, 0x1C, 0x1E, 0x20, 0x21, 0x23, 0x24,
   0x25, 0x26, 0x27, 0x28, 0x29, 0x53, 0x36, 0x38, 0x39, 0x3B, 0x3C, 0x3F,
   0x5C, 0x5F, 0x61, 0xF8, 0xFF].contains id

/-! ## Packet framing (src/protocol.rs, `Packet`) -/

/-- `Packet` (src/protocol.rs): one MySQL frame. -/
structure Packet where
  sequence_id : Nat
  payload : List Nat
deriving DecidableEq, Repr

/-- `Packet::check` (src/protocol.rs): with fewer than 4 bytes buffered the
frame is incomplete; otherwise read the 3-byte LE payload length, skip the
sequence-id byte, and test whether the payload is fully buffered. Only the
returned `Bool` is used by the caller (`Connection::read_packet` resets the
cursor to 0 afterwards). -/
def Packet.check (b : List Nat) : Bool :=
  if b.length < 4 then false
  else
    -- get_uint_le(3) consumes 3 bytes, advance(1) one more
    let payloadLen := leVal (b.take 3)
    payloadLen ≤ (b.drop 4).length

/-- `Packet::parse` (src/protocol.rs): 3-byte LE length, 1-byte sequence id,
then that many payload bytes (`copy_to_slice`, panicking when short). -/
def Packet.parse (b : List Nat) : RResult Packet :=
  (getUintLe 3 b).bind fun payloadLen r1 =>
  (getU8 r1).bind fun seqId r2 =>
  (splitTo payloadLen r2).bind fun payload r3 =>
  .ok { sequence_id := seqId, payload := payload } r3

/-! ## Handshake (src/protocol.rs, `Handshake`) -/

/-- `Handshake` (src/protocol.rs): parsed server greeting. Strings are kept
as byte lists. -/
structure Handshake where
  capabilities : Nat
  protocol_version : Nat
  scramble_1 : List Nat
  scramble_2 : Option (List Nat)
  auth_plugin_name : Option (List Nat)
  character_set : Nat
  status_flags : Nat
deriving DecidableEq, Repr

/-- The `u8 → i8` cast in `Handshake::parse`: two's-complement
reinterpretation of a byte. -/
def i8OfU8 (x : Nat) : Int := if x < 128 then (x : Int) else (x : Int) - 256

/-- Wrapping `i8` arithmetic result into `[-128, 127]` (release-mode Rust
overflow semantics for the `scramble_len as i8 - 9` subtraction). -/
def i8Wrap (x : Int) : Int := (x + 128) % 256 - 128

/-- Number of second-scramble bytes taken by `Handshake::parse`:
`max(12, scramble_len as i8 - 9) as usize`. -/
def scramble2Len (scrambleLen : Nat) : Nat :=
  (max 12 (i8Wrap (i8OfU8 scrambleLen - 9))).toNat

/-- `Handshake::parse` (src/protocol.rs): protocol version, null-terminated
server version, connection id, first 8 scramble bytes, filler, lower 16
capability bits, character set (panics on unknown ids), status flags,
upper 16 capability bits, scramble length byte, 10 reserved bytes, then —
when `CLIENT_SECURE_CONNECTION` was advertised —
`max(12, scramble_len as i8 - 9)` further scramble bytes and one skipped
byte, and — when `CLIENT_PLUGIN_AUTH` was advertised — a null-terminated
plugin name. -/
def Handshake.parse (b : List Nat) : RResult Handshake :=
  (getU8 b).bind fun protocolVersion r1 =>
  (splitTo (nullTerminatedPos r1) r1).bind fun _serverVersion r2 =>
  (advance 1 r2).bind fun _ r3 =>
  (getUintLe 4 r3).bind fun _connectionId r4 =>
  (splitTo 8 r4).bind fun scramble1 r5 =>
  (advance 1 r5).bind fun _ r6 =>
  (getUintLe 2 r6).bind fun capabilities1 r7 =>
  (getU8 r7).bind fun characterSetId r8 =>
  if validCharSetId characterSetId then
    (getUintLe 2 r8).bind fun statusBits r9 =>
    (getUintLe 2 r9).bind fun capabilities2 r10 =>
    (getU8 r10).bind fun scrambleLen r11 =>
    (advance 10 r11).bind fun _ r12 =>
    let capabilities := capFromBitsTruncate (capabilities1 ||| (capabilities2 <<< 16))
    (if capHas capabilities CLIENT_SECURE_CONNECTION then
       (splitTo (scramble2Len scrambleLen) r12).bind fun s2 r13 =>
       (advance 1 r13).bind fun _ r14 =>
       (.ok (some s2) r14 : RResult (Option (List Nat)))
     else .ok none r12).bind fun scramble2 r15 =>
    (if capHas capabilities CLIENT_PLUGIN_AUTH then
       (getNullTerminatedString r15).bind fun apn r16 =>
       (.ok (some apn) r16 : RResult (Option (List Nat)))
     else .ok none r15).bind fun authPluginName r17 =>
    .ok { capabilities := capabilities
          protocol_version := protocolVersion
          scramble_1 := scramble1
          scramble_2 := scramble2
          auth_plugin_name := authPluginName
          character_set := characterSetId
          status_flags := statusFromBitsTruncate statusBits } r17
  else .panicked

/-- `Handshake::nonce` (src/protocol.rs): first scramble part followed by
the second when present. -/
def Handshake.nonce (h : Handshake) : List Nat :=
  h.scramble_1 ++ h.scramble_2.getD []

/-! ## ERR packet (src/protocol.rs, `ServerError`) -/

/-- `ServerError` (src/protocol.rs): decoded ERR payload. -/
structure ServerError where
  error_code : Nat
  state_marker : Option (List Nat)
  state : Option (List Nat)
  error_message : List Nat
deriving DecidableEq, Repr

/-- `ServerError::parse` (src/protocol.rs): header byte, 16-bit LE error
code, then — under `CLIENT_PROTOCOL_41` — a 1-byte and a 5-byte string are
read from the cursor, but the source binds them with inner `let`s that
shadow the outer `state_marker`/`state` initializers, so the constructed
struct keeps both fields `None` while the six bytes are still consumed;
finally the rest of the payload is the message. -/
def ServerError.parse (b : List Nat) (capability_flags : Nat) : RResult ServerError :=
  (getU8 b).bind fun _header r1 =>
  (getUintLe 2 r1).bind fun errorCode r2 =>
  (if capHas capability_flags CLIENT_PROTOCOL_41 then
     (getFixedLengthString 1 r2).bind fun _shadowedMarker r3 =>
     (getFixedLengthString 5 r3).bind fun _shadowedState r4 =>
     (.ok () r4 : RResult Unit)
   else .ok () r2).bind fun _ r5 =>
  (getEofString r5).bind fun msg r6 =>
  .ok { error_code := errorCode
        state_marker := none
        state := none
        error_message := msg } r6

/-! ## OK packet (src/protocol.rs, `ServerOk`) -/

/-- `ServerOk` (src/protocol.rs): decoded OK payload. -/
structure ServerOk where
  affected_rows : Nat
  last_inserted_id : Nat
  status_flags : Option Nat
  warnings : Option Nat
  info : List Nat
  session_state_changes : Option (List Nat)
deriving DecidableEq, Repr

/-- `ServerOk::parse` (src/protocol.rs): header byte, lenenc affected rows,
lenenc last insert id; with `CLIENT_PROTOCOL_41` a 16-bit status and 16-bit
warning count, else with `CLIENT_TRANSACTIONS` just the status; then either
the `CLIENT_SESSION_TRACK` form (lenenc info plus optional lenenc
session-state changes) or a rest-of-payload info string. -/
def ServerOk.parse (b : List Nat) (capability_flags : Nat) : RResult ServerOk :=
  (getU8 b).bind fun _header r1 =>
  (getLencUint r1).bind fun affectedRows r2 =>
  (getLencUint r2).bind fun lastInsertedId r3 =>
  (if capHas capability_flags CLIENT_PROTOCOL_41 then
     (getUintLe 2 r3).bind fun st r4 =>
     (getUintLe 2 r4).bind fun w r5 =>
     (.ok (some (statusFromBitsTruncate st), some w) r5 :
       RResult (Option Nat × Option Nat))
   else if capHas capability_flags CLIENT_TRANSACTIONS then
     (getUintLe 2 r3).bind fun st r4 =>
     (.ok (some (statusFromBitsTruncate st), none) r4 :
       RResult (Option Nat × Option Nat))
   else .ok (none, none) r3).bind fun sw r6 =>
  (if capHas capability_flags CLIENT_SESSION_TRACK then
     (getLencString r6).bind fun info r7 =>
     let hasSessionStateChanges :=
       match sw.1 with
       | some f => capHas f SERVER_SESSION_STATE_CHANGED
       | none => false
     if hasSessionStateChanges then
       (getLencString r7).bind fun ssc r8 =>
       (.ok (info, some ssc) r8 : RResult (List Nat × Option (List Nat)))
     else .ok (info, none) r7
   else
     (getEofString r6).bind fun info r7 =>
     (.ok (info, none) r7 : RResult (List Nat × Option (List Nat)))).bind
    fun iss r9 =>
  .ok { affected_rows := affectedRows
        last_inserted_id := lastInsertedId
        status_flags := sw.1
        warnings := sw.2
        info := iss.1
        session_state_changes := iss.2 } r9

/-! ## Table-map column metadata (src/protocol_binlog.rs, `TableMapEvent`) -/

/-- `ColumnType` (src/protocol.rs). -/
inductive ColumnType where
  | decimal | tiny | short | long | float | double | null | timestamp
  | longlong | int24 | date | time | datetime | year | newdate | varchar
  | bit | timestamp2 | datetime2 | time2 | json | newdecimal | enum_ | set
  | tinyBlob | mediumBlob | longBlob | blob | varString | string | geometry
deriving DecidableEq, Repr

/-- The per-column metadata loop of `TableMapEvent::parse`
(src/protocol_binlog.rs lines 356-406), run over the already split metadata
blob: for `STRING`, `NEWDECIMAL`, `VAR_STRING`, `VARCHAR` and `BIT` the
source reads a single byte with `get_u8` and widens it to `u16`; the
one-byte group (`BLOB`, `DOUBLE`, `FLOAT`, `GEOMETRY`, `JSON`, `TIME2`,
`DATETIME2`, `TIMESTAMP2`) also reads one byte; the remaining handled types
store 0 without reading; every other type panics. Returns the metadata
entries in column order together with the unread part of the blob. -/
def tableMapColumnMetas : List ColumnType → List Nat → RResult (List Nat)
  | [], r => .ok [] r
  | t :: ts, r =>
    match t with
    | .string | .newdecimal | .varString | .varchar | .bit =>
      -- TODO in the source: "this should be using read_u16"
      (getU8 r).bind fun m r2 =>
      (tableMapColumnMetas ts r2).bind fun ms r3 => .ok (m :: ms) r3
    | .blob | .double | .float | .geometry | .json =>
      (getU8 r).bind fun m r2 =>
      (tableMapColumnMetas ts r2).bind fun ms r3 => .ok (m :: ms) r3
    | .time2 | .datetime2 | .timestamp2 =>
      (getU8 r).bind fun m r2 =>
      (tableMapColumnMetas ts r2).bind fun ms r3 => .ok (m :: ms) r3
    | .decimal | .tiny | .short | .long | .null | .timestamp | .longlong
    | .int24 | .date | .time | .datetime | .year =>
      (tableMapColumnMetas ts r).bind fun ms r3 => .ok (0 :: ms) r3
    | _ => .panicked

/-! ## Connection layer (src/conn.rs) -/

/-- `DriverError` (src/conn.rs), the variants the modelled operations can
produce. -/
inductive DriverError where
  | UnexpectedPacket
  | ConnectionResetByPeer
  | PacketOutOfSync
  | ConnectionClosed
deriving DecidableEq, Repr

/-- The fields of `Connection` (src/conn.rs) that the modelled operations
read or write; flag sets as `Nat` masks. -/
structure ConnState where
  capabilities : Nat
  status_flags : Nat
  sequence_id : Nat
  warnings : Nat
  affected_rows : Nat
  last_inserted_id : Nat
deriving DecidableEq, Repr

/-- `Connection::check_sequence_id` (src/conn.rs): a mismatch returns
`PacketOutOfSync` leaving the connection untouched; a match increments the
expected id with `u8::wrapping_add`. -/
def Connection.checkSequenceId (c : ConnState) (sequence_id : Nat) :
    Except DriverError Unit × ConnState :=
  if c.sequence_id ≠ sequence_id then (.error .PacketOutOfSync, c)
  else (.ok (), { c with sequence_id := (c.sequence_id + 1) % 256 })

/-- `Connection::handle_ok` (src/conn.rs): caches the OK's affected rows,
last insert id, status flags (`unwrap_or(empty)`) and warning count
(`unwrap_or(0)`). -/
def Connection.handleOk (c : ConnState) (ok : ServerOk) : ConnState :=
  { c with affected_rows := ok.affected_rows
           last_inserted_id := ok.last_inserted_id
           status_flags := ok.status_flags.getD 0
           warnings := ok.warnings.getD 0 }

/-- `Host` (src/conn.rs); address payloads reduced to numbers/bytes. -/
inductive Host where
  | Domain : List Nat → Host
  | V4 : Nat → Host
  | V6 : Nat → Host
deriving DecidableEq, Repr

/-- `ConnectionOptions` (src/conn.rs); strings as byte lists. -/
structure ConnectionOptions where
  host : Option Host
  port : Nat
  user : Option (List Nat)
  password : Option (List Nat)
  db_name : Option (List Nat)
  hostname : Option (List Nat)
  server_id : Option Nat
deriving DecidableEq, Repr

/-- `ConnectionOptions::has_db_name`: a configured, non-empty db name. -/
def ConnectionOptions.hasDbName (o : ConnectionOptions) : Bool :=
  match o.db_name with
  | some s => !s.isEmpty
  | none => false

/-- `ConnectionOptions::compression_enabled` (src/conn.rs): constantly
`false` in the source. -/
def ConnectionOptions.compressionEnabled (_ : ConnectionOptions) : Bool := false

/-- `ConnectionOptions::ssl_enabled` (src/conn.rs): constantly `false` in
the source. -/
def ConnectionOptions.sslEnabled (_ : ConnectionOptions) : Bool := false

/-- `default_capabilities` (src/conn.rs): the baseline client set plus the
conditionally inserted `COMPRESS`, `CONNECT_WITH_DB` and `SSL` flags. -/
def defaultCapabilities (opts : ConnectionOptions) : Nat :=
  let caps := CLIENT_PROTOCOL_41 ||| CLIENT_SECURE_CONNECTION |||
    CLIENT_LONG_PASSWORD ||| CLIENT_PLUGIN_AUTH ||| CLIENT_LONG_FLAG |||
    CLIENT_DEPRECATE_EOF
  let caps := if opts.compressionEnabled then caps ||| CLIENT_COMPRESS else caps
  let caps := if opts.hasDbName then caps ||| CLIENT_CONNECT_WITH_DB else caps
  if opts.sslEnabled then caps ||| CLIENT_SSL else caps

/-- The capability negotiation of `Connection::handle_handshake`
(src/conn.rs): panics unless the greeting has protocol version 10 and
advertises `CLIENT_PROTOCOL_41` (and on the unsupported ssl path); otherwise
the connection's capability set becomes the intersection of the server's
set with `default_capabilities`. The subsequent authentication IO does not
touch the capability set. -/
def Connection.handleHandshakeCaps (p : Handshake) (opts : ConnectionOptions) :
    Option Nat :=
  if p.protocol_version ≠ 10 then none
  else if ¬ capHas p.capabilities CLIENT_PROTOCOL_41 then none
  else if opts.sslEnabled then none
  else some (p.capabilities &&& defaultCapabilities opts)

/-! ## Cursor lemmas -/

theorem getU8_cons (x : Nat) (r : List Nat) : getU8 (x :: r) = .ok x r := rfl

theorem splitTo_exact (xs ys : List Nat) : splitTo xs.length (xs ++ ys) = .ok xs ys := by
  simp [splitTo]

theorem advance_exact (xs ys : List Nat) : advance xs.length (xs ++ ys) = .ok () ys := by
  simp [advance]

theorem getUintLe_exact (xs ys : List Nat) :
    getUintLe xs.length (xs ++ ys) = .ok (leVal xs) ys := by
  simp [getUintLe]

theorem advance_one_cons (x : Nat) (r : List Nat) : advance 1 (x :: r) = .ok () r := by
  simp [advance]

theorem nullTerminatedPos_append_zero (xs ys : List Nat) (h : ∀ x ∈ xs, x ≠ 0) :
    nullTerminatedPos (xs ++ 0 :: ys) = xs.length := by
  induction xs with
  | nil => simp [nullTerminatedPos, List.findIdx_cons]
  | cons a as ih =>
    have ha : a ≠ 0 := h a (by simp)
    have := ih (fun x hx => h x (by simp [hx]))
    have hb : (a == 0) = false := by simpa using ha
    simp only [List.cons_append, nullTerminatedPos, List.findIdx_cons] at *
    simp [hb, this]

/-! ## C1 — sequence-id check -/

/-- C1: for every inbound packet, `Connection::check_sequence_id` returns
`PacketOutOfSync` and leaves the connection (in particular the expected
sequence id) unchanged when the packet's sequence id differs from the
expected one; otherwise it succeeds and the expected id increments by one
with wraparound modulo 256. -/
theorem checkSequenceId_spec (c : ConnState) (i : Nat) :
    (i ≠ c.sequence_id →
      Connection.checkSequenceId c i = (.error .PacketOutOfSync, c))
    ∧ (i = c.sequence_id →
      Connection.checkSequenceId c i =
        (.ok (), { c with sequence_id := (c.sequence_id + 1) % 256 })) := by
  constructor
  · intro h
    simp [Connection.checkSequenceId, Ne.symm h]
  · intro h
    simp [Connection.checkSequenceId, h]

theorem checkSequenceId_spec_witness :
    Connection.checkSequenceId ⟨0, 0, 3, 0, 0, 0⟩ 5 =
      (.error .PacketOutOfSync, ⟨0, 0, 3, 0, 0, 0⟩)
    ∧ Connection.checkSequenceId ⟨0, 0, 255, 0, 0, 0⟩ 255 = (.ok (), ⟨0, 0, 0, 0, 0, 0⟩) :=
  ⟨(checkSequenceId_spec ⟨0, 0, 3, 0, 0, 0⟩ 5).1 (by decide),
   (checkSequenceId_spec ⟨0, 0, 255, 0, 0, 0⟩ 255).2 rfl⟩

/-! ## C2 — length-encoded integers -/

/-- C2: `safe_get_lenc_uint` reads one byte `x`; when `x < 0xFC` it returns
`x`, when `x` is `0xFC`/`0xFD`/`0xFE` it returns the next 2/3/8 bytes as a
little-endian integer, and `0xFF` is an error. -/
theorem lencUint_spec (x : Nat) (rest : List Nat) :
    (x < 0xFC → safeGetLencUint (x :: rest) = .ok x rest)
    ∧ (2 ≤ rest.length →
        safeGetLencUint (0xFC :: rest) = .ok (leVal (rest.take 2)) (rest.drop 2))
    ∧ (3 ≤ rest.length →
        safeGetLencUint (0xFD :: rest) = .ok (leVal (rest.take 3)) (rest.drop 3))
    ∧ (8 ≤ rest.length →
        safeGetLencUint (0xFE :: rest) = .ok (leVal (rest.take 8)) (rest.drop 8))
    ∧ safeGetLencUint (0xFF :: rest) = .otherErr := by
  refine ⟨?_, ?_, ?_, ?_, ?_⟩
  · intro hx
    simp only [safeGetLencUint, safeGetU8, getU8, List.length_cons]
    rw [if_pos (by omega), RResult.bind_ok,
      if_neg (by omega), if_neg (by omega), if_neg (by omega), if_neg (by omega)]
  · intro h
    simp only [safeGetLencUint, safeGetU8, getU8, List.length_cons]
    rw [if_pos (by omega), RResult.bind_ok, if_pos rfl]
    simp [safeGetUintLe, getUintLe, h]
  · intro h
    simp only [safeGetLencUint, safeGetU8, getU8, List.length_cons]
    rw [if_pos (by omega), RResult.bind_ok, if_neg (by omega), if_pos rfl]
    simp [safeGetUintLe, getUintLe, h]
  · intro h
    simp only [safeGetLencUint, safeGetU8, getU8, List.length_cons]
    rw [if_pos (by omega), RResult.bind_ok, if_neg (by omega), if_neg (by omega),
      if_pos rfl]
    simp [safeGetUintLe, getUintLe, h]
  · simp only [safeGetLencUint, safeGetU8, getU8, List.length_cons]
    rw [if_pos (by omega), RResult.bind_ok, if_neg (by omega), if_neg (by omega),
      if_neg (by omega), if_pos rfl]

theorem lencUint_spec_witness :
    safeGetLencUint (5 :: [1, 2, 3, 4, 5, 6, 7, 8]) = .ok 5 [1, 2, 3, 4, 5, 6, 7, 8]
    ∧ safeGetLencUint (0xFC :: [1, 2, 3, 4, 5, 6, 7, 8]) = .ok 513 [3, 4, 5, 6, 7, 8]
    ∧ safeGetLencUint (0xFD :: [1, 2, 3, 4, 5, 6, 7, 8]) = .ok 197121 [4, 5, 6, 7, 8]
    ∧ safeGetLencUint (0xFE :: [1, 2, 3, 4, 5, 6, 7, 8]) =
        .ok 578437695752307201 []
    ∧ safeGetLencUint (0xFF :: [1, 2, 3, 4, 5, 6, 7, 8]) = .otherErr :=
  ⟨(lencUint_spec 5 [1, 2, 3, 4, 5, 6, 7, 8]).1 (by decide),
   (lencUint_spec 0xFC [1, 2, 3, 4, 5, 6, 7, 8]).2.1 (by decide),
   (lencUint_spec 0xFD [1, 2, 3, 4, 5, 6, 7, 8]).2.2.1 (by decide),
   (lencUint_spec 0xFE [1, 2, 3, 4, 5, 6, 7, 8]).2.2.2.1 (by decide),
   (lencUint_spec 0xFF [1, 2, 3, 4, 5, 6, 7, 8]).2.2.2.2⟩

/-! ## C3 — totality of the byte-codec decoders -/

/-- C3: the claim says every decoder either succeeds or returns an
`UnexpectedEof`/`InvalidData` error and never panics, but
`safe_get_lenc_bytes` forwards the decoded length straight to
`Buf::copy_to_slice`: on the buffer `[0x02, 0x41]` the declared length 2
exceeds the single remaining byte and the call panics instead of returning
`UnexpectedEof` (the convention the surrounding `safe_` decoders document
and follow). -/
theorem safeGetLencBytes_panics :
    safeGetLencBytes [0x02, 0x41] = .panicked
    ∧ (RResult.panicked : RResult (List Nat)) ≠ .eofErr := by decide

/-! ## C8 — ERR packet SQLSTATE -/

/-- C8: with `CLIENT_PROTOCOL_41` negotiated, `ServerError::parse` consumes
the one-byte state marker and 5-byte SQLSTATE and yields the rest as the
message, but the parsed `ServerError` stores `None` for both the marker and
the SQLSTATE (the source's inner `let` bindings shadow the result fields),
contradicting the claim that the error carries them. Payload:
`FF 14 04 '#' '4' '2' 'S' '0' '2' 'b' 'a' 'd'`. -/
theorem serverError_drops_sqlstate :
    ServerError.parse
        [0xFF, 0x14, 0x04, 0x23, 0x34, 0x32, 0x53, 0x30, 0x32, 0x62, 0x61, 0x64]
        CLIENT_PROTOCOL_41 =
      .ok { error_code := 0x0414, state_marker := none, state := none,
            error_message := [0x62, 0x61, 0x64] } []
    ∧ (none : Option (List Nat)) ≠ some [0x23] := by decide

/-! ## C9 — table-map column metadata widths -/

/-- C9: the claim (and the server's documented format) gives `STRING`,
`NEWDECIMAL`, `VAR_STRING`, `VARCHAR` and `BIT` columns two metadata bytes
stored as a little-endian `u16`, but the source's loop reads a single byte
for them (its own TODO admits "this should be using read_u16"): on the
spec's TABLE_MAP fixture columns `[LONG, VARCHAR, VARCHAR, DATE]` with
metadata blob `[0x58, 0x02, 0x58, 0x02]` it stores `[0, 0x58, 0x02, 0]`
and leaves two blob bytes unread, instead of `[0, 0x0258, 0x0258, 0]`
consuming all four. -/
theorem tableMap_meta_one_byte :
    tableMapColumnMetas [.long, .varchar, .varchar, .date] [0x58, 0x02, 0x58, 0x02] =
      .ok [0, 0x58, 0x02, 0] [0x58, 0x02]
    ∧ (RResult.ok [0, 0x58, 0x02, 0] [0x58, 0x02] : RResult (List Nat)) ≠
        .ok [0, 0x0258, 0x0258, 0] [] := by decide

/-! ## C4 — null-terminated strings -/

theorem nullTerminatedPos_eq_takeWhile_length (b : List Nat) :
    nullTerminatedPos b = (b.takeWhile (fun x => x != 0)).length := by
  induction b with
  | nil => rfl
  | cons a as ih =>
    by_cases ha : a = 0
    · subst ha
      simp [nullTerminatedPos, List.findIdx_cons, List.takeWhile_cons]
    · have hb : (a == 0) = false := by simpa using ha
      simp [nullTerminatedPos, List.findIdx_cons, List.takeWhile_cons, hb, ha] at *
      exact ih

theorem nullTerminatedPos_le (b : List Nat) : nullTerminatedPos b ≤ b.length := by
  rw [nullTerminatedPos_eq_takeWhile_length]
  simpa using (List.takeWhile_sublist _ (l := b)).length_le

theorem take_nullTerminatedPos (b : List Nat) :
    b.take (nullTerminatedPos b) = b.takeWhile (fun x => x != 0) := by
  induction b with
  | nil => rfl
  | cons a as ih =>
    by_cases ha : a = 0
    · subst ha
      simp [nullTerminatedPos, List.findIdx_cons, List.takeWhile_cons]
    · have hb : (a == 0) = false := by simpa using ha
      simp [nullTerminatedPos, List.findIdx_cons, List.takeWhile_cons, hb, ha] at *
      exact ih

theorem headD_drop_nullTerminatedPos (b : List Nat) (h : 0 ∈ b) :
    (b.drop (nullTerminatedPos b)).headD 1 = 0 := by
  induction b with
  | nil => cases h
  | cons a as ih =>
    by_cases ha : a = 0
    · subst ha
      simp [nullTerminatedPos, List.findIdx_cons]
    · have hb : (a == 0) = false := by simpa using ha
      have hmem : 0 ∈ as := by
        rcases List.mem_cons.mp h with h0 | h0
        · exact absurd h0.symm ha
        · exact h0
      simp only [nullTerminatedPos, List.findIdx_cons, hb, Bool.cond_false,
        List.drop_succ_cons]
      exact ih hmem

theorem nullTerminatedPos_of_not_mem (b : List Nat) (h : 0 ∉ b) :
    nullTerminatedPos b = b.length := by
  induction b with
  | nil => rfl
  | cons a as ih =>
    have ha : a ≠ 0 := fun e => h (by simp [e])
    have hb : (a == 0) = false := by simpa using ha
    have hmem : 0 ∉ as := fun e => h (by simp [e])
    simp [nullTerminatedPos, List.findIdx_cons, hb] at *
    exact ih hmem

/-- C4 counterexample: on `[0x41, 0x00, 0x42]` the decoder returns the byte
before the terminator but the terminator byte is **not** consumed — the
remaining buffer is `[0x00, 0x42]`, not the `[0x42]` the claim's
"consumes that terminator byte from the cursor" demands
(`safe_get_fixed_length_string` is called with the terminator's index as
the length, so the cursor stops on the `0x00`). -/
theorem nullTerminatedString_keeps_terminator :
    safeNullTerminatedString [0x41, 0x00, 0x42] = .ok [0x41] [0x00, 0x42]
    ∧ ([0x00, 0x42] : List Nat) ≠ [0x42] := by decide

/-- C4 amended: decoding a null-terminated string returns (when those bytes
decode as UTF-8) the bytes strictly before the first `0x00` and consumes
exactly those bytes, leaving the terminator in the buffer (its head is the
`0x00` whenever one exists); when the buffer contains no `0x00`, it returns
and consumes all remaining bytes. -/
theorem nullTerminatedString_spec (b : List Nat)
    (hv : validUtf8 (b.takeWhile (fun x => x != 0)) = true) :
    safeNullTerminatedString b =
      .ok (b.takeWhile (fun x => x != 0))
        (b.drop (b.takeWhile (fun x => x != 0)).length)
    ∧ (0 ∈ b → (b.drop (b.takeWhile (fun x => x != 0)).length).headD 1 = 0)
    ∧ (0 ∉ b → b.drop (b.takeWhile (fun x => x != 0)).length = []) := by
  have hpos := nullTerminatedPos_eq_takeWhile_length b
  have hle := nullTerminatedPos_le b
  have htake := take_nullTerminatedPos b
  refine ⟨?_, ?_, ?_⟩
  · rw [← hpos]
    simp only [safeNullTerminatedString, safeGetFixedLengthString, htake]
    rw [if_pos hle, if_pos hv]
  · intro hmem
    rw [← hpos]
    exact headD_drop_nullTerminatedPos b hmem
  · intro hmem
    rw [← hpos, nullTerminatedPos_of_not_mem b hmem, List.drop_length]

theorem nullTerminatedString_spec_witness :
    safeNullTerminatedString [0x41, 0x42, 0x00, 0x43] =
      .ok ([0x41, 0x42, 0x00, 0x43].takeWhile (fun x => x != 0))
        ([0x41, 0x42, 0x00, 0x43].drop
          ([0x41, 0x42, 0x00, 0x43].takeWhile (fun x => x != 0)).length)
    ∧ ((0x41 : Nat) :: [0x42, 0x00, 0x43]).drop
        (([0x41, 0x42, 0x00, 0x43] : List Nat).takeWhile (fun x => x != 0)).length =
        [0x00, 0x43] :=
  ⟨(nullTerminatedString_spec [0x41, 0x42, 0x00, 0x43] (by decide)).1, by decide⟩

/-! ## C5 — packet framing -/

/-- C5: `Packet::check` returns true iff at least 4 bytes are buffered and
the total buffered length is at least 4 plus the 3-byte little-endian
header length; and whenever `check` returns true, `Packet::parse` yields a
packet whose payload is exactly the `header length` bytes after the 4-byte
header (so `length == payload.len()`) and whose sequence id is the fourth
buffered byte. -/
theorem packet_check_parse_spec (b : List Nat) :
    (Packet.check b = true ↔ 4 ≤ b.length ∧ 4 + leVal (b.take 3) ≤ b.length)
    ∧ (Packet.check b = true →
        Packet.parse b =
          .ok { sequence_id := b.getD 3 0,
                payload := (b.drop 4).take (leVal (b.take 3)) }
            ((b.drop 4).drop (leVal (b.take 3)))
        ∧ ((b.drop 4).take (leVal (b.take 3))).length = leVal (b.take 3)) := by
  have hcheck : Packet.check b = true ↔ 4 ≤ b.length ∧ 4 + leVal (b.take 3) ≤ b.length := by
    simp only [Packet.check]
    by_cases h4 : b.length < 4
    · simp [h4]
    · rw [if_neg h4]
      simp only [List.length_drop, decide_eq_true_eq]
      omega
  refine ⟨hcheck, fun hc => ?_⟩
  obtain ⟨h4, hlen⟩ := hcheck.mp hc
  have h3 : (3 : Nat) ≤ b.length := by omega
  have hd3 : 3 < b.length := by omega
  have hdrop : getU8 (b.drop 3) = .ok (b.getD 3 0) (b.drop 4) := by
    rw [List.drop_eq_getElem_cons hd3, getU8_cons, List.getD_eq_getElem b 0 hd3]
  have hplen : leVal (b.take 3) ≤ (b.drop 4).length := by
    simp only [List.length_drop]; omega
  constructor
  · simp only [Packet.parse, getUintLe, if_pos h3, RResult.bind_ok, hdrop,
      splitTo, if_pos hplen]
  · simp only [List.length_take, List.length_drop]
    omega

theorem packet_check_parse_witness :
    Packet.check [2, 0, 0, 5, 9, 7, 8] = true
    ∧ Packet.parse [2, 0, 0, 5, 9, 7, 8] = .ok { sequence_id := 5, payload := [9, 7] } [8] :=
  ⟨by decide, ((packet_check_parse_spec [2, 0, 0, 5, 9, 7, 8]).2 (by decide)).1⟩

/-! ## C6 — capability negotiation -/

/-- C6: whenever `handle_handshake` completes its capability negotiation
(protocol version 10, server advertising `CLIENT_PROTOCOL_41`), the
connection's capability set becomes the bitwise AND of the server's
advertised set with the client set `default_capabilities(opts)`, which
always contains `PROTOCOL_41`, `SECURE_CONNECTION`, `LONG_PASSWORD`,
`PLUGIN_AUTH`, `LONG_FLAG` and `DEPRECATE_EOF`, contains `CONNECT_WITH_DB`
exactly when a non-empty db name is configured, `COMPRESS` exactly when
compression is enabled, and `SSL` exactly when ssl is enabled. -/
theorem handshake_capabilities_spec (p : Handshake) (opts : ConnectionOptions)
    (caps : Nat) (h : Connection.handleHandshakeCaps p opts = some caps) :
    caps = p.capabilities &&& defaultCapabilities opts
    ∧ capHas (defaultCapabilities opts) CLIENT_PROTOCOL_41 = true
    ∧ capHas (defaultCapabilities opts) CLIENT_SECURE_CONNECTION = true
    ∧ capHas (defaultCapabilities opts) CLIENT_LONG_PASSWORD = true
    ∧ capHas (defaultCapabilities opts) CLIENT_PLUGIN_AUTH = true
    ∧ capHas (defaultCapabilities opts) CLIENT_LONG_FLAG = true
    ∧ capHas (defaultCapabilities opts) CLIENT_DEPRECATE_EOF = true
    ∧ capHas (defaultCapabilities opts) CLIENT_CONNECT_WITH_DB = opts.hasDbName
    ∧ capHas (defaultCapabilities opts) CLIENT_COMPRESS = opts.compressionEnabled
    ∧ capHas (defaultCapabilities opts) CLIENT_SSL = opts.sslEnabled := by
  have hcaps : caps = p.capabilities &&& defaultCapabilities opts := by
    simp only [Connection.handleHandshakeCaps] at h
    split_ifs at h
    exact (Option.some_inj.mp h).symm
  refine ⟨hcaps, ?_⟩
  cases hdb : opts.hasDbName <;>
    simp [defaultCapabilities, ConnectionOptions.compressionEnabled,
      ConnectionOptions.sslEnabled, hdb] <;> decide

theorem handshake_capabilities_witness :
    (0xFFFFFFFF &&& defaultCapabilities
        { host := none, port := 3306, user := some [114], password := none,
          db_name := some [100], hostname := none, server_id := none }) =
      0x0108820D
    ∧ capHas (defaultCapabilities
        { host := none, port := 3306, user := some [114], password := none,
          db_name := some [100], hostname := none, server_id := none })
        CLIENT_CONNECT_WITH_DB = true := by
  have h := handshake_capabilities_spec
    { capabilities := 0xFFFFFFFF, protocol_version := 10, scramble_1 := [],
      scramble_2 := none, auth_plugin_name := none, character_set := 0x21,
      status_flags := 0 }
    { host := none, port := 3306, user := some [114], password := none,
      db_name := some [100], hostname := none, server_id := none }
    (0xFFFFFFFF &&& defaultCapabilities
      { host := none, port := 3306, user := some [114], password := none,
        db_name := some [100], hostname := none, server_id := none })
    (by decide)
  exact ⟨by decide, by simpa using h.2.2.2.2.2.2.2.1⟩

/-! ## C10 — OK handling replaces the cached values -/

/-- C10: `handle_ok` replaces the cached affected rows, last insert id,
status flags and warnings with the OK's values (defaulting absent flags to
the empty set and absent warnings to 0); and when the negotiated
capabilities contain neither `CLIENT_PROTOCOL_41` nor
`CLIENT_TRANSACTIONS`, every parsed OK carries no status flags and no
warning count, so the connection's cached status flags reset to the empty
set and warnings to 0 instead of the previous values being retained. -/
theorem handleOk_spec (c : ConnState) (ok : ServerOk) :
    ((Connection.handleOk c ok).affected_rows = ok.affected_rows
      ∧ (Connection.handleOk c ok).last_inserted_id = ok.last_inserted_id
      ∧ (Connection.handleOk c ok).status_flags = ok.status_flags.getD 0
      ∧ (Connection.handleOk c ok).warnings = ok.warnings.getD 0)
    ∧ ∀ b caps ok2 rest,
        capHas caps CLIENT_PROTOCOL_41 = false →
        capHas caps CLIENT_TRANSACTIONS = false →
        ServerOk.parse b caps = .ok ok2 rest →
        ok2.status_flags = none ∧ ok2.warnings = none
          ∧ (Connection.handleOk c ok2).status_flags = 0
          ∧ (Connection.handleOk c ok2).warnings = 0 := by
  refine ⟨⟨rfl, rfl, rfl, rfl⟩, ?_⟩
  intro b caps ok2 rest h41 htr hp
  have hsw : ok2.status_flags = none ∧ ok2.warnings = none := by
    simp only [ServerOk.parse, h41, htr, Bool.false_eq_true, if_false] at hp
    cases hA : getU8 b <;> rw [hA] at hp <;> simp at hp
    case ok hd r1 =>
    cases hB : getLencUint r1 <;> rw [hB] at hp <;> simp at hp
    case ok affected r2 =>
    cases hC : getLencUint r2 <;> rw [hC] at hp <;> simp at hp
    case ok inserted r3 =>
    by_cases hS : capHas caps CLIENT_SESSION_TRACK = true
    · simp only [hS, if_true] at hp
      cases hD : getLencString r3 <;> rw [hD] at hp <;> simp at hp
      next info r4 =>
      obtain ⟨h1, -⟩ := hp
      subst h1
      exact ⟨rfl, rfl⟩
    · simp only [eq_false_of_ne_true hS, Bool.false_eq_true, if_false] at hp
      cases hE : getEofString r3 <;> rw [hE] at hp <;> simp at hp
      next info r4 =>
      obtain ⟨h1, -⟩ := hp
      subst h1
      exact ⟨rfl, rfl⟩
  refine ⟨hsw.1, hsw.2, ?_, ?_⟩ <;>
    simp [Connection.handleOk, hsw.1, hsw.2]

theorem handleOk_spec_witness :
    ServerOk.parse [0x00, 0x02, 0x07] 0 =
      .ok { affected_rows := 2, last_inserted_id := 7, status_flags := none,
            warnings := none, info := [], session_state_changes := none } []
    ∧ (Connection.handleOk ⟨0, 0x4000, 0, 9, 1, 1⟩
        { affected_rows := 2, last_inserted_id := 7, status_flags := none,
          warnings := none, info := [], session_state_changes := none }).status_flags = 0
    ∧ (Connection.handleOk ⟨0, 0x4000, 0, 9, 1, 1⟩
        { affected_rows := 2, last_inserted_id := 7, status_flags := none,
          warnings := none, info := [], session_state_changes := none }).warnings = 0 :=
  ⟨by decide,
   ((handleOk_spec ⟨0, 0x4000, 0, 9, 1, 1⟩
      { affected_rows := 2, last_inserted_id := 7, status_flags := none,
        warnings := none, info := [], session_state_changes := none }).2
      [0x00, 0x02, 0x07] 0 _ [] (by decide) (by decide) (by decide)).2.2.1,
   ((handleOk_spec ⟨0, 0x4000, 0, 9, 1, 1⟩
      { affected_rows := 2, last_inserted_id := 7, status_flags := none,
        warnings := none, info := [], session_state_changes := none }).2
      [0x00, 0x02, 0x07] 0 _ [] (by decide) (by decide) (by decide)).2.2.2⟩

/-! ## C7 — handshake scramble length -/

theorem getUintLe_of_length (n : Nat) (xs ys : List Nat) (h : xs.length = n) :
    getUintLe n (xs ++ ys) = .ok (leVal xs) ys := by
  subst h; exact getUintLe_exact xs ys

theorem splitTo_of_length (n : Nat) (xs ys : List Nat) (h : xs.length = n) :
    splitTo n (xs ++ ys) = .ok xs ys := by
  subst h; exact splitTo_exact xs ys

theorem advance_of_length (n : Nat) (xs ys : List Nat) (h : xs.length = n) :
    advance n (xs ++ ys) = .ok () ys := by
  subst h; exact advance_exact xs ys

theorem getUintLe_two_cons (x y : Nat) (r : List Nat) :
    getUintLe 2 (x :: y :: r) = .ok (leVal [x, y]) r :=
  getUintLe_of_length 2 [x, y] r rfl

theorem advance_one_drop (n : Nat) (tail : List Nat) (h : n + 1 ≤ tail.length) :
    advance 1 (tail.drop n) = .ok () (tail.drop (n + 1)) := by
  simp only [advance, List.length_drop]
  rw [if_pos (by omega), List.drop_drop]

/-- For scramble-length bytes `L ≤ 127` the signed reinterpretation is the
identity and the source's count agrees with `max 12 (L - 9)`
(= `max 13 (L - 8) - 1`). -/
theorem scramble2Len_small (L : Nat) (hL : L ≤ 127) :
    scramble2Len L = max 12 (L - 9) := by
  simp only [scramble2Len, i8OfU8, i8Wrap]
  rw [if_pos (show L < 128 by omega)]
  have h1 : ((L : Int) - 9 + 128) % 256 = (L : Int) + 119 := by
    rw [show (L : Int) - 9 + 128 = (L : Int) + 119 by ring]
    exact Int.emod_eq_of_lt (by omega) (by omega)
  rw [h1]
  omega

/-- C7 counterexample: a greeting advertising `CLIENT_SECURE_CONNECTION`
with scramble total-length byte `L = 255` — the claim demands that after
the 10-byte reserved block the parser consume `max(13, 255 − 8) = 247`
bytes and return `246` scramble bytes, so `nonce()` would have
`8 + max(12, 246) = 254` bytes; the source casts `L` to `i8` first
(`255 as i8 = -1`), so it takes only `max(12, -1 - 9) = 12` bytes and the
nonce has 20. -/
theorem handshake_scramble_counterexample :
    (Handshake.parse
        [10, 0, 1, 0, 0, 0, 1, 2, 3, 4, 5, 6, 7, 8, 0, 0, 0x80, 0x21, 0, 0, 0, 0,
         255, 0, 0, 0, 0, 0, 0, 0, 0, 0, 0,
         21, 22, 23, 24, 25, 26, 27, 28, 29, 30, 31, 32, 0]).bind
      (fun h r => .ok (h.scramble_2.map List.length, h.nonce.length) r) =
      .ok (some 12, 20) []
    ∧ (20 : Nat) ≠ 8 + (max 13 (255 - 8) - 1)
    ∧ (12 : Nat) ≠ max 13 (255 - 8) - 1 := by decide

/-- C7 amended: for every greeting whose capabilities include
`CLIENT_SECURE_CONNECTION` and that declares scramble total length `L`,
`Handshake::parse` consumes exactly `max(12, i8(L) − 9) + 1` bytes after
the 10-byte reserved block (where `i8` reinterprets the byte as a signed
8-bit integer), returning the first `max(12, i8(L) − 9)` of them as the
second scramble part with the following byte skipped; hence `nonce()` has
length `8 + max(12, i8(L) − 9)`. For `L ≤ 127` this equals the claimed
`8 + max(12, L − 9)` (= `8 + (max(13, L − 8) − 1)`); the claim's formula
fails for `L ≥ 137`. -/
theorem handshake_scramble_spec
    (sv cid s1 res tail : List Nat) (f cs st0 st1 c0 c1 c2 c3 L caps : Nat)
    (hsv : ∀ x ∈ sv, x ≠ 0)
    (hcid : cid.length = 4) (hs1 : s1.length = 8) (hres : res.length = 10)
    (hcs : validCharSetId cs = true)
    (hcaps : capFromBitsTruncate (leVal [c0, c1] ||| (leVal [c2, c3] <<< 16)) = caps)
    (hsec : capHas caps CLIENT_SECURE_CONNECTION = true)
    (hplug : capHas caps CLIENT_PLUGIN_AUTH = false)
    (htail : scramble2Len L + 1 ≤ tail.length) :
    Handshake.parse
        (10 :: (sv ++ (0 :: (cid ++ (s1 ++ (f :: (c0 :: (c1 :: (cs :: (st0 :: (st1 :: (c2 :: (c3 :: (L :: (res ++ tail))))))))))))))) =
      .ok { capabilities := caps, protocol_version := 10, scramble_1 := s1,
            scramble_2 := some (tail.take (scramble2Len L)),
            auth_plugin_name := none, character_set := cs,
            status_flags := statusFromBitsTruncate (leVal [st0, st1]) }
        (tail.drop (scramble2Len L + 1))
    ∧ (∀ h r, Handshake.parse
        (10 :: (sv ++ (0 :: (cid ++ (s1 ++ (f :: (c0 :: (c1 :: (cs :: (st0 :: (st1 :: (c2 :: (c3 :: (L :: (res ++ tail))))))))))))))) = .ok h r →
        h.nonce.length = 8 + scramble2Len L)
    ∧ (L ≤ 127 → scramble2Len L = max 12 (L - 9)) := by
  have hlen12 : scramble2Len L ≤ tail.length := by omega
  have hmain : Handshake.parse
      (10 :: (sv ++ (0 :: (cid ++ (s1 ++ (f :: (c0 :: (c1 :: (cs :: (st0 :: (st1 :: (c2 :: (c3 :: (L :: (res ++ tail))))))))))))))) =
      .ok { capabilities := caps, protocol_version := 10, scramble_1 := s1,
            scramble_2 := some (tail.take (scramble2Len L)),
            auth_plugin_name := none, character_set := cs,
            status_flags := statusFromBitsTruncate (leVal [st0, st1]) }
        (tail.drop (scramble2Len L + 1)) := by
    simp only [Handshake.parse, getU8_cons, RResult.bind_ok]
    rw [nullTerminatedPos_append_zero _ _ hsv, splitTo_exact]
    simp only [RResult.bind_ok, advance_one_cons]
    rw [getUintLe_of_length 4 cid _ hcid]
    simp only [RResult.bind_ok]
    rw [splitTo_of_length 8 s1 _ hs1]
    simp only [RResult.bind_ok, advance_one_cons]
    rw [getUintLe_two_cons]
    simp only [RResult.bind_ok, getU8_cons, hcs, if_true]
    rw [getUintLe_two_cons]
    simp only [RResult.bind_ok]
    rw [getUintLe_two_cons]
    simp only [RResult.bind_ok, getU8_cons]
    rw [advance_of_length 10 res _ hres]
    simp only [RResult.bind_ok, hcaps, hsec, if_true]
    simp only [splitTo, if_pos hlen12, RResult.bind_ok]
    rw [advance_one_drop _ _ htail]
    simp only [RResult.bind_ok, hplug, Bool.false_eq_true, if_false]
  refine ⟨hmain, ?_, fun hL => scramble2Len_small L hL⟩
  intro h r hp
  rw [hmain, RResult.ok.injEq] at hp
  obtain ⟨h1, -⟩ := hp
  subst h1
  simp only [Handshake.nonce, Option.getD_some, List.length_append, hs1,
    List.length_take]
  omega

theorem handshake_scramble_spec_witness :
    Handshake.parse
        (10 :: ([97] ++ (0 :: ([1, 2, 3, 4] ++ ([1, 2, 3, 4, 5, 6, 7, 8] ++ (0 :: (0 :: (0x80 :: (0x21 :: (0 :: (0 :: (0 :: (0 :: (20 :: ([0, 0, 0, 0, 0, 0, 0, 0, 0, 0] ++ [41, 42, 43, 44, 45, 46, 47, 48, 49, 50, 51, 52, 0]))))))))))))))) =
      .ok { capabilities := 0x8000, protocol_version := 10,
            scramble_1 := [1, 2, 3, 4, 5, 6, 7, 8],
            scramble_2 := some ([41, 42, 43, 44, 45, 46, 47, 48, 49, 50, 51, 52, 0].take (scramble2Len 20)),
            auth_plugin_name := none, character_set := 0x21,
            status_flags := statusFromBitsTruncate (leVal [0, 0]) }
        ([41, 42, 43, 44, 45, 46, 47, 48, 49, 50, 51, 52, 0].drop (scramble2Len 20 + 1))
    ∧ scramble2Len 20 = max 12 (20 - 9) :=
  ⟨(handshake_scramble_spec [97] [1, 2, 3, 4] [1, 2, 3, 4, 5, 6, 7, 8]
      [0, 0, 0, 0, 0, 0, 0, 0, 0, 0] [41, 42, 43, 44, 45, 46, 47, 48, 49, 50, 51, 52, 0]
      0 0x21 0 0 0 0x80 0 0 20 0x8000
      (by decide) (by decide) (by decide) (by decide) (by decide) (by decide)
      (by decide) (by decide) (by decide)).1,
   (handshake_scramble_spec [97] [1, 2, 3, 4] [1, 2, 3, 4, 5, 6, 7, 8]
      [0, 0, 0, 0, 0, 0, 0, 0, 0, 0] [41, 42, 43, 44, 45, 46, 47, 48, 49, 50, 51, 52, 0]
      0 0x21 0 0 0 0x80 0 0 20 0x8000
      (by decide) (by decide) (by decide) (by decide) (by decide) (by decide)
      (by decide) (by decide) (by decide)).2.2 (by decide)⟩

end TailMysql
